import Mathlib

/-!
Verification of the rcjk-tools glyph composition / interpolation engine
(`Lib/rcjktools/project.py`).

Modelling conventions:
* Python floats are modelled as real numbers (`ℝ`); arithmetic is exact.
* Fallible code returns `Except PyError`; an uncaught Python exception other
  than the repository's `InterpolationError` is collapsed into
  `PyError.otherError`.
* The file-backed, memoized `GlyphSet` stores are modelled as the pure
  name-to-glyph lookup functions they denote (caching is invisible to the
  call-and-return semantics).
* Outlines follow the spec's boundary data model (section 3 / section 6): an
  ordered list of `beginPath` / `addPoint(pt, segmentType, smooth, name)` /
  `endPath` records, exactly the argument tuples recorded by
  `RecordingPointPen` for glyph sources.
-/

namespace RcjkTools

/-- Errors: `interpolationError` is the `InterpolationError` class defined in
`project.py`; every other Python exception kind (`TypeError`,
`AssertionError`, `FileNotFoundError`, ...) is collapsed into `otherError`. -/
inductive PyError where
  | interpolationError (msg : String)
  | otherError (msg : String)
deriving DecidableEq

/-- A value stored in a coordinate / transform dict (`MathDict`): either a
Python number (`int` / `float`) or an opaque non-numeric value, represented by
a string and compared only for equality. -/
inductive MDValue where
  | num (x : ℝ)
  | str (s : String)

/-- `MathDict` from `project.py`: a string-keyed mapping, modelled as an
association list in insertion order (Python dicts preserve insertion order). -/
abbrev MathDict := List (String × MDValue)

/-- Dictionary lookup: the value at the first occurrence of key `k`. -/
def mdGet (d : MathDict) (k : String) : Option MDValue :=
  (d.find? (fun kv => kv.1 == k)).map (fun kv => kv.2)

/-- First-occurrence key dedup with an accumulator of already seen keys;
mirrors Python dict key collection, where later insertions of an existing key
do not move it. -/
def dedupKeysGo (seen : List String) : List String → List String
  | [] => []
  | k :: ks =>
    if k ∈ seen then dedupKeysGo seen ks
    else k :: dedupKeysGo (k :: seen) ks

/-- The key list of `self_other = dict(other); self_other.update(self)` in
`MathDict._doBinaryOperator`: other's keys in order, then self-only keys. -/
def mdUnionKeys (self other : MathDict) : List String :=
  dedupKeysGo [] (other.map Prod.fst ++ self.map Prod.fst)

/-- The body of the per-key loop of `MathDict._doBinaryOperator`:
`v1` is the self-preferred value, `v2` the other-preferred value.
`isinstance(v1, (int, float))` selects the numeric branch on `v1`; applying a
Python arithmetic operator to a number and a non-number raises `TypeError`
(modelled as `otherError`); unequal non-numeric values raise
`InterpolationError("incompatible dicts")`. -/
def mdCombine (op : ℝ → ℝ → ℝ) : MDValue → MDValue → Except PyError MDValue
  | .num x1, .num x2 => .ok (.num (op x1 x2))
  | .num _, .str _ => .error (.otherError "unsupported operand type")
  | .str s1, .str s2 =>
    if s1 = s2 then .ok (.str s1)
    else .error (.interpolationError "incompatible dicts")
  | .str _, .num _ => .error (.interpolationError "incompatible dicts")

/-- The per-key step of `MathDict._doBinaryOperator` at key `k`:
`self_other[k]` falls back to `other[k]` when `k` is missing from `self`, and
`other_self[k]` falls back to `self[k]` when `k` is missing from `other`, so a
key present on one side only has its single value used for both operands. -/
def combineAt (op : ℝ → ℝ → ℝ) (self other : MathDict) (k : String) :
    Except PyError MDValue :=
  match mdGet self k, mdGet other k with
  | some v1, some v2 => mdCombine op v1 v2
  | some v1, none => mdCombine op v1 v1
  | none, some v2 => mdCombine op v2 v2
  | none, none => .error (.otherError "unreachable: key not in union")

/-- The loop of `MathDict._doBinaryOperator` over the union key list: build
the result entry by entry, aborting at the first raised error. -/
def mdBlendKeys (op : ℝ → ℝ → ℝ) (self other : MathDict) :
    List String → Except PyError MathDict
  | [] => .ok []
  | k :: ks =>
    match combineAt op self other k with
    | .error e => .error e
    | .ok v =>
      match mdBlendKeys op self other ks with
      | .error e => .error e
      | .ok rest => .ok ((k, v) :: rest)

/-- `MathDict._doBinaryOperator` (project.py lines 417-432). -/
def MathDict.doBinaryOperator (self other : MathDict) (op : ℝ → ℝ → ℝ) :
    Except PyError MathDict :=
  mdBlendKeys op self other (mdUnionKeys self other)

/-- `MathDict._doUnaryOperator`: scale numeric entries, pass non-numeric
entries through unchanged. -/
def MathDict.doUnaryOperator (self : MathDict) (scalar : ℝ) (op : ℝ → ℝ → ℝ) :
    MathDict :=
  self.map fun kv =>
    match kv.2 with
    | .num x => (kv.1, .num (op x scalar))
    | v => (kv.1, v)

/-- Affine transform, as in `fontTools.misc.transform.Transform`
(an external collaborator of the repository): the matrix
`(xx, xy, yx, yy, dx, dy)` maps `(x, y)` to
`(xx*x + yx*y + dx, xy*x + yy*y + dy)`. -/
structure Transform where
  xx : ℝ
  xy : ℝ
  yx : ℝ
  yy : ℝ
  dx : ℝ
  dy : ℝ

/-- `Transform()`: the identity transform. -/
def Transform.identity : Transform := ⟨1, 0, 0, 1, 0, 0⟩

/-- `Transform.transform(other)`: matrix composition; the resulting transform
applies `other` first and `self` second. -/
def Transform.transform (self other : Transform) : Transform :=
  ⟨other.xx * self.xx + other.xy * self.yx,
   other.xx * self.xy + other.xy * self.yy,
   other.yx * self.xx + other.yy * self.yx,
   other.yx * self.xy + other.yy * self.yy,
   self.xx * other.dx + self.yx * other.dy + self.dx,
   self.xy * other.dx + self.yy * other.dy + self.dy⟩

/-- `Transform.translate(x, y)`. -/
def Transform.translate (self : Transform) (x y : ℝ) : Transform :=
  self.transform ⟨1, 0, 0, 1, x, y⟩

/-- `Transform.scale(x, y)`. -/
def Transform.scale (self : Transform) (sx sy : ℝ) : Transform :=
  self.transform ⟨sx, 0, 0, sy, 0, 0⟩

/-- `Transform.rotate(angle)` (angle in radians); the float hygiene of
`_normSinCos` is the identity on exact values. -/
noncomputable def Transform.rotate (self : Transform) (angle : ℝ) : Transform :=
  self.transform ⟨Real.cos angle, Real.sin angle, -(Real.sin angle), Real.cos angle, 0, 0⟩

/-- `Transform.transformPoint((x, y))`. -/
def Transform.transformPoint (self : Transform) (p : ℝ × ℝ) : ℝ × ℝ :=
  (self.xx * p.1 + self.yx * p.2 + self.dx,
   self.xy * p.1 + self.yy * p.2 + self.dy)

/-- `math.radians`. -/
noncomputable def radians (degrees : ℝ) : ℝ := degrees * (Real.pi / 180)

/-- `makeTransform` (project.py lines 503-512): the rotation pivot
`(rcenterx, rcentery)` is scaled before use; then translate to the scaled
pivot, rotate, translate back, and scale. -/
noncomputable def makeTransform (x y rotation scalex scaley rcenterx rcentery : ℝ) :
    Transform :=
  let rot := radians rotation
  let rcx := rcenterx * scalex
  let rcy := rcentery * scaley
  (((Transform.identity.translate (x + rcx) (y + rcy)).rotate rot).translate
      (-rcx) (-rcy)).scale scalex scaley

/-- One recorded point-pen operation (an entry of
`RecordingPointPen.value`): `("beginPath", (), ...)`,
`("addPoint", (pt, segmentType, smooth, name), ...)` or `("endPath", (), ...)`. -/
inductive PathOp where
  | beginPath
  | addPoint (pt : ℝ × ℝ) (segmentType : Option String) (smooth : Bool) (name : Option String)
  | endPath

/-- `MathOutline`: a recording point pen whose `value` is the recorded
operation list. -/
structure MathOutline where
  value : List PathOp

/-- The operation rebuild of `MathOutline.applyUnaryFunc`: `addPoint` gets its
point mapped through `func`, `beginPath` / `endPath` are replayed verbatim. -/
def applyPathOpFunc (func : ℝ × ℝ → ℝ × ℝ) : PathOp → PathOp
  | .addPoint pt seg smooth name => .addPoint (func pt) seg smooth name
  | op => op

/-- `MathOutline.applyUnaryFunc`. -/
def MathOutline.applyUnaryFunc (self : MathOutline) (func : ℝ × ℝ → ℝ × ℝ) :
    MathOutline :=
  ⟨self.value.map (applyPathOpFunc func)⟩

/-- `MathOutline.transform(t)`: apply an affine transform to every point. -/
def MathOutline.transform (self : MathOutline) (t : Transform) : MathOutline :=
  self.applyUnaryFunc t.transformPoint

/-- `MathOutline._doUnaryOperator(scalar, op)`: apply `op(coordinate, scalar)`
to both coordinates of every point. -/
def MathOutline.doUnaryOperator (self : MathOutline) (scalar : ℝ) (op : ℝ → ℝ → ℝ) :
    MathOutline :=
  self.applyUnaryFunc fun pt => (op pt.1 scalar, op pt.2 scalar)

/-- The per-pair body of the loop in `MathOutline._doBinaryOperator`:
mismatched method kinds or mismatched `segmentType` raise
`InterpolationError("incompatible outline")`; for matching `addPoint`
operations the operator is applied coordinate-wise and `segmentType`,
`smooth` and `name` are taken from the left operand. -/
def blendPathOp (op : ℝ → ℝ → ℝ) : PathOp → PathOp → Except PyError PathOp
  | .beginPath, .beginPath => .ok .beginPath
  | .endPath, .endPath => .ok .endPath
  | .addPoint pt1 seg1 smooth1 name1, .addPoint pt2 seg2 _ _ =>
    if seg1 ≠ seg2 then .error (.interpolationError "incompatible outline")
    else .ok (.addPoint (op pt1.1 pt2.1, op pt1.2 pt2.2) seg1 smooth1 name1)
  | _, _ => .error (.interpolationError "incompatible outline")

/-- The zip loop of `MathOutline._doBinaryOperator` (the operand lengths have
been checked equal before this loop runs, so the mismatched-length fallback is
unreachable there; it raises the same error for definiteness). -/
def blendPathOps (op : ℝ → ℝ → ℝ) : List PathOp → List PathOp → Except PyError (List PathOp)
  | [], [] => .ok []
  | o1 :: t1, o2 :: t2 =>
    match blendPathOp op o1 o2 with
    | .error e => .error e
    | .ok o =>
      match blendPathOps op t1 t2 with
      | .error e => .error e
      | .ok rest => .ok (o :: rest)
  | _, _ => .error (.interpolationError "incompatible outline")

/-- `MathOutline._doBinaryOperator` (project.py lines 471-492): differing
operation counts raise `InterpolationError("incompatible outline")` before any
pair is compared. -/
def MathOutline.doBinaryOperator (self other : MathOutline) (op : ℝ → ℝ → ℝ) :
    Except PyError MathOutline :=
  if self.value.length ≠ other.value.length then
    .error (.interpolationError "incompatible outline")
  else
    match blendPathOps op self.value other.value with
    | .error e => .error e
    | .ok ops => .ok ⟨ops⟩

/-- Structural compatibility of two operation lists: same length, same method
kind at every index, and equal `segmentType` at every `addPoint` pair.
Point coordinates, `smooth` flags and point names are not inspected. -/
def pathOpsCompatible : List PathOp → List PathOp → Bool
  | [], [] => true
  | .beginPath :: t1, .beginPath :: t2 => pathOpsCompatible t1 t2
  | .endPath :: t1, .endPath :: t2 => pathOpsCompatible t1 t2
  | .addPoint _ seg1 _ _ :: t1, .addPoint _ seg2 _ _ :: t2 =>
    seg1 == seg2 && pathOpsCompatible t1 t2
  | _, _ => false

/-- The successful result of one blended operation: point coordinates are
combined by the operator, everything else (method kind, `segmentType`,
`smooth`, `name`) is taken from the left operand. -/
def blendOp (op : ℝ → ℝ → ℝ) : PathOp → PathOp → PathOp
  | .addPoint pt1 seg1 smooth1 name1, .addPoint pt2 _ _ _ =>
    .addPoint (op pt1.1 pt2.1, op pt1.2 pt2.2) seg1 smooth1 name1
  | o1, _ => o1

/-- `Component`: a component reference with target name, coordinate map and
transform-parameter map. -/
structure Component where
  name : String
  coord : MathDict
  transform : MathDict

/-- `Component.__add__` / `__sub__`: blend `coord` and `transform` with the
dict operator, keep the left operand's name. -/
def Component.doBinaryOperator (self other : Component) (op : ℝ → ℝ → ℝ) :
    Except PyError Component :=
  match self.coord.doBinaryOperator other.coord op with
  | .error e => .error e
  | .ok coord =>
    match self.transform.doBinaryOperator other.transform op with
    | .error e => .error e
    | .ok transform => .ok ⟨self.name, coord, transform⟩

/-- `Component.__mul__`: scale both dicts. -/
def Component.doUnaryOperator (self : Component) (scalar : ℝ) (op : ℝ → ℝ → ℝ) :
    Component :=
  ⟨self.name, self.coord.doUnaryOperator scalar op,
   self.transform.doUnaryOperator scalar op⟩

/-- The blendable value part of a parsed `Glyph`: name, advance width,
outline and component list (the fields set by `Glyph._doBinaryOperator` /
`_doUnaryOperator` on their fresh result glyph). -/
structure Glyph where
  name : String
  width : ℝ
  outline : MathOutline
  components : List Component

/-- The component-pair loop of `Glyph._doBinaryOperator`. -/
def blendComponents (op : ℝ → ℝ → ℝ) :
    List (Component × Component) → Except PyError (List Component)
  | [] => .ok []
  | (c1, c2) :: rest =>
    match c1.doBinaryOperator c2 op with
    | .error e => .error e
    | .ok c =>
      match blendComponents op rest with
      | .error e => .error e
      | .ok cs => .ok (c :: cs)

/-- `Glyph._doBinaryOperator`: blend width, outline, and the positionally
zipped component lists (`zip` truncates silently in the source; the parse-time
assertion is what guarantees equal lengths). -/
def Glyph.doBinaryOperator (self other : Glyph) (op : ℝ → ℝ → ℝ) :
    Except PyError Glyph :=
  match self.outline.doBinaryOperator other.outline op with
  | .error e => .error e
  | .ok outline =>
    match blendComponents op (self.components.zip other.components) with
    | .error e => .error e
    | .ok components => .ok ⟨self.name, op self.width other.width, outline, components⟩

/-- `Glyph._doUnaryOperator`. -/
def Glyph.doUnaryOperator (self : Glyph) (scalar : ℝ) (op : ℝ → ℝ → ℝ) : Glyph :=
  ⟨self.name, op self.width scalar, self.outline.doUnaryOperator scalar op,
   self.components.map fun compo => compo.doUnaryOperator scalar op⟩

/-- A normalized location: axis name to clamped numeric value. -/
abbrev Location := List (String × ℝ)

/-- Location lookup. -/
def locGet (loc : Location) (axis : String) : Option ℝ :=
  (loc.find? (fun kv => kv.1 == axis)).map (fun kv => kv.2)

/-- `axes.get(axisName, (0, 1))`: the declared raw range of an axis, with the
default `(0, 1)` for undeclared axes. -/
def axesGet (axes : List (String × (ℝ × ℝ))) (axis : String) : ℝ × ℝ :=
  ((axes.find? (fun kv => kv.1 == axis)).map (fun kv => kv.2)).getD (0, 1)

/-- `normalizeValue` (project.py lines 360-362): `assert minValue < maxValue`
(modelled as `otherError` on violation), then `(value - min) / (max - min)`. -/
noncomputable def normalizeValue (value minValue maxValue : ℝ) : Except PyError ℝ :=
  if minValue < maxValue then .ok ((value - minValue) / (maxValue - minValue))
  else .error (.otherError "assert minValue < maxValue")

/-- `_clampLocation`: clamp every value to `[0, 1]`. -/
noncomputable def clampLocation (d : Location) : Location :=
  d.map fun kv => (kv.1, min 1 (max 0 kv.2))

/-- The comprehension loop of `normalizeLocation`: applying `normalizeValue`
to a non-numeric coordinate value raises `TypeError` in Python. -/
noncomputable def normalizeLocationGo (axes : List (String × (ℝ × ℝ))) :
    MathDict → Except PyError Location
  | [] => .ok []
  | (axisName, .num v) :: rest =>
    match normalizeValue v (axesGet axes axisName).1 (axesGet axes axisName).2 with
    | .error e => .error e
    | .ok nv =>
      match normalizeLocationGo axes rest with
      | .error e => .error e
      | .ok restLoc => .ok ((axisName, nv) :: restLoc)
  | (_, .str _) :: _ => .error (.otherError "unsupported operand type for normalizeValue")

/-- `normalizeLocation` (project.py lines 365-368). -/
noncomputable def normalizeLocation (location : MathDict) (axes : List (String × (ℝ × ℝ))) :
    Except PyError Location :=
  match normalizeLocationGo axes location with
  | .error e => .error e
  | .ok loc => .ok (clampLocation loc)

/-- The variation data carried by a parsed master glyph: the blendable value
(`glyph`), the axis table, the variation siblings each tagged with the axis of
its location `{axis: 1.0}` (set in `Glyph._postParse`), and whether
`self.model` was built (it is iff a variation key was present in the lib).
This flattens the single Python `Glyph` class, whose interpolation output only
ever carries the blendable fields. -/
structure GlyphMaster where
  glyph : Glyph
  axes : List (String × (ℝ × ℝ))
  variations : List (String × Glyph)
  modelPresent : Bool

/-- Modelled from the spec: the delta loop of
`fontTools.varLib.models.VariationModel.getDeltas`, which is not part of this
repository. In this engine's restricted case (section 4.3: neutral at the
empty location plus one master per axis at `{axis: 1.0}`) the neutral's basis
vector is the neutral itself and every other basis vector is that master
minus the neutral, computed with the value type's blend operations. -/
def getDeltasGo (neutral : Glyph) :
    List (String × Glyph) → Except PyError (List (String × Glyph))
  | [] => .ok []
  | (axis, varGlyph) :: rest =>
    match varGlyph.doBinaryOperator neutral (fun a b => a - b) with
    | .error e => .error e
    | .ok d =>
      match getDeltasGo neutral rest with
      | .error e => .error e
      | .ok ds => .ok ((axis, d) :: ds)

/-- Modelled from the spec: `VariationModel.getDeltas` for the restricted
model of section 4.3; returns the neutral basis vector together with the
per-axis basis vectors. -/
def getDeltas (neutral : Glyph) (variations : List (String × Glyph)) :
    Except PyError (Glyph × List (String × Glyph)) :=
  match getDeltasGo neutral variations with
  | .error e => .error e
  | .ok ds => .ok (neutral, ds)

/-- Modelled from the spec: the weighted-sum loop of
`VariationModel.interpolateFromDeltas` (not part of this repository). The
scalar weight of the per-axis master for `axis` is the location's value for
`axis` (0 when absent); zero-weight contributions are skipped. -/
noncomputable def interpolateGo (loc : Location) :
    Glyph → List (String × Glyph) → Except PyError Glyph
  | v, [] => .ok v
  | v, (axis, delta) :: rest =>
    if (locGet loc axis).getD 0 = 0 then interpolateGo loc v rest
    else
      match v.doBinaryOperator
          (delta.doUnaryOperator ((locGet loc axis).getD 0) (fun a b => a * b))
          (fun a b => a + b) with
      | .error e => .error e
      | .ok v2 => interpolateGo loc v2 rest

/-- Modelled from the spec: `VariationModel.interpolateFromDeltas`; the
neutral's weight is 1, so the sum starts from `neutral * 1`. -/
noncomputable def interpolateFromDeltas (loc : Location) (neutralDelta : Glyph)
    (deltas : List (String × Glyph)) : Except PyError Glyph :=
  interpolateGo loc (neutralDelta.doUnaryOperator 1 (fun a b => a * b)) deltas

/-- `Glyph.instantiate` (project.py lines 330-336): no model means the glyph
is its own sole master and is returned unchanged; otherwise the cached deltas
are computed (on first use; caching is invisible to the pure semantics), the
location is normalized, and the model is evaluated. -/
noncomputable def GlyphMaster.instantiate (m : GlyphMaster) (location : MathDict) :
    Except PyError Glyph :=
  if m.modelPresent = false then .ok m.glyph
  else
    match getDeltas m.glyph m.variations with
    | .error e => .error e
    | .ok deltas =>
      match normalizeLocation location m.axes with
      | .error e => .error e
      | .ok nloc => interpolateFromDeltas nloc deltas.1 deltas.2

/-- Extraction of one numeric transform parameter for
`makeTransform(**component.transform)`; a missing or non-numeric entry is a
Python `TypeError`. -/
def mdGetNum (d : MathDict) (k : String) : Except PyError ℝ :=
  match mdGet d k with
  | some (.num x) => .ok x
  | _ => .error (.otherError ("missing transform parameter " ++ k))

/-- `makeTransform(**component.transform)`: unpack the seven numeric transform
parameters from the component's transform dict and build the transform. -/
noncomputable def makeTransformFromDict (d : MathDict) : Except PyError Transform :=
  match mdGetNum d "x", mdGetNum d "y", mdGetNum d "rotation", mdGetNum d "scalex",
      mdGetNum d "scaley", mdGetNum d "rcenterx", mdGetNum d "rcentery" with
  | .ok x, .ok y, .ok rotation, .ok scalex, .ok scaley, .ok rcenterx, .ok rcentery =>
    .ok (makeTransform x y rotation scalex scaley rcenterx rcentery)
  | _, _, _, _, _, _, _ => .error (.otherError "missing transform parameter")

/-- `RoboCJKProject`: the three tier glyph sets, each modelled as the pure
name-to-parsed-master mapping its file-backed memoized `GlyphSet` denotes. -/
structure RoboCJKProject where
  characterGlyphGlyphSet : String → Option GlyphMaster
  deepComponentGlyphSet : String → Option GlyphMaster
  atomicElementGlyphSet : String → Option GlyphMaster

/-- `GlyphSet.getGlyph`: a missing source file raises (uncaught, hence
`otherError`). -/
def lookupGlyph (glyphSet : String → Option GlyphMaster) (glyphName : String) :
    Except PyError GlyphMaster :=
  match glyphSet glyphName with
  | some g => .ok g
  | none => .error (.otherError ("glyph not found " ++ glyphName))

/-- `RoboCJKProject.instantiateAtomicElement` (project.py lines 64-67). -/
noncomputable def RoboCJKProject.instantiateAtomicElement (p : RoboCJKProject)
    (glyphName : String) (location : MathDict) (transform : Transform) :
    Except PyError MathOutline :=
  match lookupGlyph p.atomicElementGlyphSet glyphName with
  | .error e => .error e
  | .ok master =>
    match master.instantiate location with
    | .error e => .error e
    | .ok glyph => .ok (glyph.outline.transform transform)

/-- The component loop of `RoboCJKProject.instantiateDeepComponent`: each
atomic component's local transform is composed with the parent transform
(`transform.transform(makeTransform(**component.transform))`). -/
noncomputable def instantiateAtomicItems (p : RoboCJKProject) (parentTransform : Transform) :
    List Component → Except PyError (List (String × MathOutline))
  | [] => .ok []
  | component :: rest =>
    match makeTransformFromDict component.transform with
    | .error e => .error e
    | .ok ct =>
      match p.instantiateAtomicElement component.name component.coord
          (parentTransform.transform ct) with
      | .error e => .error e
      | .ok atomicOutline =>
        match instantiateAtomicItems p parentTransform rest with
        | .error e => .error e
        | .ok restItems => .ok ((component.name, atomicOutline) :: restItems)

/-- `RoboCJKProject.instantiateDeepComponent` (project.py lines 52-62). -/
noncomputable def RoboCJKProject.instantiateDeepComponent (p : RoboCJKProject)
    (glyphName : String) (location : MathDict) (transform : Transform) :
    Except PyError (List (String × MathOutline)) :=
  match lookupGlyph p.deepComponentGlyphSet glyphName with
  | .error e => .error e
  | .ok master =>
    match master.instantiate location with
    | .error e => .error e
    | .ok glyph => instantiateAtomicItems p transform glyph.components

/-- The component loop of `RoboCJKProject.instantiateCharacterGlyph`: each deep
component is resolved at the component's own coordinate with the locally built
transform. -/
noncomputable def instantiateDeepItems (p : RoboCJKProject) :
    List Component → Except PyError (List (String × List (String × MathOutline)))
  | [] => .ok []
  | component :: rest =>
    match makeTransformFromDict component.transform with
    | .error e => .error e
    | .ok t =>
      match p.instantiateDeepComponent component.name component.coord t with
      | .error e => .error e
      | .ok deepItem =>
        match instantiateDeepItems p rest with
        | .error e => .error e
        | .ok restItems => .ok ((component.name, deepItem) :: restItems)

/-- `RoboCJKProject.instantiateCharacterGlyph` (project.py lines 40-50):
returns the character's own outline, the nested deep/atomic outline tree, and
the instantiated advance width. -/
noncomputable def RoboCJKProject.instantiateCharacterGlyph (p : RoboCJKProject)
    (glyphName : String) (location : MathDict) :
    Except PyError (MathOutline × List (String × List (String × MathOutline)) × ℝ) :=
  match lookupGlyph p.characterGlyphGlyphSet glyphName with
  | .error e => .error e
  | .ok master =>
    match master.instantiate location with
    | .error e => .error e
    | .ok glyph =>
      match instantiateDeepItems p glyph.components with
      | .error e => .error e
      | .ok deepItems => .ok (glyph.outline, deepItems, glyph.width)

/-- Discriminates the error kinds caught by the batch export loop: `true`
exactly for an uncaught (non-`InterpolationError`) exception. -/
def isOtherErr (r : Except PyError ℝ) : Bool :=
  match r with
  | .error (.otherError _) => true
  | _ => false

/-- `RoboCJKProject.addFlattenedGlyphsToUFO` (project.py lines 74-87), with the
per-glyph composition (`drawCharacterGlyph` at the export location, drawing
into the glyph's pen and returning the width) abstracted as `compose`. The
result is the list of glyphs actually stored into the UFO, in order, with the
written advance width `max 0 width`, plus the uncaught exception that aborted
the loop, if any. A glyph raising `InterpolationError` is logged and skipped;
any other exception propagates immediately, leaving the remaining glyph names
unprocessed. -/
noncomputable def addFlattenedGlyphsToUFO (compose : String → Except PyError ℝ) :
    List String → List (String × ℝ) × Option PyError
  | [] => ([], none)
  | glyphName :: rest =>
    match compose glyphName with
    | .ok width =>
      let restResult := addFlattenedGlyphsToUFO compose rest
      ((glyphName, max 0 width) :: restResult.1, restResult.2)
    | .error (.interpolationError _) => addFlattenedGlyphsToUFO compose rest
    | .error (.otherError msg) => ([], some (.otherError msg))

/-- Atomic element "C" of the end-to-end scenario: a single closed path with
points (0,0), (10,0), (10,10), (0,10). -/
def outlineC : MathOutline :=
  ⟨[.beginPath,
    .addPoint (0, 0) (some "line") false none,
    .addPoint (10, 0) (some "line") false none,
    .addPoint (10, 10) (some "line") false none,
    .addPoint (0, 10) (some "line") false none,
    .endPath]⟩

/-- The identity transform-parameter dict. -/
def identityTransformDict : MathDict :=
  [("x", .num 0), ("y", .num 0), ("rotation", .num 0), ("scalex", .num 1),
   ("scaley", .num 1), ("rcenterx", .num 0), ("rcentery", .num 0)]

/-- The transform-parameter dict of A's reference to B: x=10, everything else
neutral. -/
def transformDictB : MathDict :=
  [("x", .num 10), ("y", .num 0), ("rotation", .num 0), ("scalex", .num 1),
   ("scaley", .num 1), ("rcenterx", .num 0), ("rcentery", .num 0)]

/-- Atomic element "C": neutral outline only, no components, no variations. -/
def glyphMasterC : GlyphMaster :=
  ⟨⟨"C", 0, outlineC, []⟩, [], [], false⟩

/-- Deep component "B": one reference to "C" with identity transform and empty
coordinate map. -/
def glyphMasterB : GlyphMaster :=
  ⟨⟨"B", 0, ⟨[]⟩, [⟨"C", [], identityTransformDict⟩]⟩, [], [], false⟩

/-- Character glyph "A" with neutral advance width `w`: one reference to "B"
with coordinate `{wght: 1}` and transform `(x=10, y=0, rotation=0, scaleX=1,
scaleY=1, pivotX=0, pivotY=0)`. -/
def glyphMasterA (w : ℝ) : GlyphMaster :=
  ⟨⟨"A", w, ⟨[]⟩, [⟨"B", [("wght", .num 1)], transformDictB⟩]⟩, [], [], false⟩

/-- The three-tier project of the end-to-end scenario. -/
def projectABC (w : ℝ) : RoboCJKProject :=
  ⟨fun n => if n = "A" then some (glyphMasterA w) else none,
   fun n => if n = "B" then some glyphMasterB else none,
   fun n => if n = "C" then some glyphMasterC else none⟩

end RcjkTools

namespace RcjkTools

theorem pathOpsCompatible_length : ∀ (l1 l2 : List PathOp),
    pathOpsCompatible l1 l2 = true → l1.length = l2.length
  | [], [], _ => rfl
  | [], _ :: _, h => by simp [pathOpsCompatible] at h
  | _ :: _, [], h => by simp [pathOpsCompatible] at h
  | o1 :: t1, o2 :: t2, h => by
    have ht : pathOpsCompatible t1 t2 = true := by
      cases o1 <;> cases o2 <;> simp_all [pathOpsCompatible]
    simp [pathOpsCompatible_length t1 t2 ht]

theorem blendPathOps_ok_of_compat (op : ℝ → ℝ → ℝ) : ∀ (l1 l2 : List PathOp),
    pathOpsCompatible l1 l2 = true →
    blendPathOps op l1 l2 = .ok (List.zipWith (blendOp op) l1 l2)
  | [], [], _ => rfl
  | [], _ :: _, h => by simp [pathOpsCompatible] at h
  | _ :: _, [], h => by simp [pathOpsCompatible] at h
  | o1 :: t1, o2 :: t2, h => by
    cases o1 <;> cases o2 <;>
      simp_all [pathOpsCompatible, blendPathOps, blendPathOp, blendOp,
        blendPathOps_ok_of_compat op t1 t2]

theorem blendPathOps_err_of_incompat (op : ℝ → ℝ → ℝ) : ∀ (l1 l2 : List PathOp),
    l1.length = l2.length → pathOpsCompatible l1 l2 = false →
    blendPathOps op l1 l2 = .error (.interpolationError "incompatible outline")
  | [], [], _, h2 => by simp [pathOpsCompatible] at h2
  | [], _ :: _, h1, _ => by simp at h1
  | _ :: _, [], h1, _ => by simp at h1
  | o1 :: t1, o2 :: t2, h1, h2 => by
    have h1' : t1.length = t2.length := by simpa using h1
    cases o1 with
    | beginPath =>
      cases o2 with
      | beginPath =>
        have ht : pathOpsCompatible t1 t2 = false := by
          simpa [pathOpsCompatible] using h2
        simp [blendPathOps, blendPathOp, blendPathOps_err_of_incompat op t1 t2 h1' ht]
      | addPoint pt seg smooth name => simp [blendPathOps, blendPathOp]
      | endPath => simp [blendPathOps, blendPathOp]
    | endPath =>
      cases o2 with
      | beginPath => simp [blendPathOps, blendPathOp]
      | addPoint pt seg smooth name => simp [blendPathOps, blendPathOp]
      | endPath =>
        have ht : pathOpsCompatible t1 t2 = false := by
          simpa [pathOpsCompatible] using h2
        simp [blendPathOps, blendPathOp, blendPathOps_err_of_incompat op t1 t2 h1' ht]
    | addPoint pt1 seg1 smooth1 name1 =>
      cases o2 with
      | beginPath => simp [blendPathOps, blendPathOp]
      | endPath => simp [blendPathOps, blendPathOp]
      | addPoint pt2 seg2 smooth2 name2 =>
        by_cases hseg : seg1 = seg2
        · have ht : pathOpsCompatible t1 t2 = false := by
            simpa [pathOpsCompatible, hseg] using h2
          simp [blendPathOps, blendPathOp, hseg,
            blendPathOps_err_of_incompat op t1 t2 h1' ht]
        · simp [blendPathOps, blendPathOp, hseg]

end RcjkTools

namespace RcjkTools

theorem outline_doBinaryOperator_ok_of_compat (op : ℝ → ℝ → ℝ) (a b : MathOutline)
    (h : pathOpsCompatible a.value b.value = true) :
    a.doBinaryOperator b op = .ok ⟨List.zipWith (blendOp op) a.value b.value⟩ := by
  have hlen := pathOpsCompatible_length a.value b.value h
  simp [MathOutline.doBinaryOperator, hlen,
    blendPathOps_ok_of_compat op a.value b.value h]

theorem outline_doBinaryOperator_err_of_incompat (op : ℝ → ℝ → ℝ) (a b : MathOutline)
    (h : pathOpsCompatible a.value b.value = false) :
    a.doBinaryOperator b op = .error (.interpolationError "incompatible outline") := by
  by_cases hlen : a.value.length = b.value.length
  · simp [MathOutline.doBinaryOperator, hlen,
      blendPathOps_err_of_incompat op a.value b.value hlen h]
  · simp [MathOutline.doBinaryOperator, hlen]

theorem zipWith_blendOp_compat (op : ℝ → ℝ → ℝ) : ∀ (l1 l2 : List PathOp),
    pathOpsCompatible l1 l2 = true →
    pathOpsCompatible (List.zipWith (blendOp op) l1 l2) l2 = true
  | [], [], _ => rfl
  | [], _ :: _, h => by simp [pathOpsCompatible] at h
  | _ :: _, [], h => by simp [pathOpsCompatible] at h
  | o1 :: t1, o2 :: t2, h => by
    cases o1 <;> cases o2 <;>
      simp_all [pathOpsCompatible, blendOp, zipWith_blendOp_compat op t1 t2]

theorem zipWith_blendOp_sub_add_cancel : ∀ (l1 l2 : List PathOp),
    pathOpsCompatible l1 l2 = true →
    List.zipWith (blendOp (fun x y => x - y))
      (List.zipWith (blendOp (fun x y => x + y)) l1 l2) l2 = l1
  | [], [], _ => rfl
  | [], _ :: _, h => by simp [pathOpsCompatible] at h
  | _ :: _, [], h => by simp [pathOpsCompatible] at h
  | o1 :: t1, o2 :: t2, h => by
    cases o1 <;> cases o2 <;>
      simp_all [pathOpsCompatible, blendOp, zipWith_blendOp_sub_add_cancel t1 t2,
        add_sub_cancel_right, Prod.mk.eta]

/-- C7: blending two outlines with differing operation counts fails with
`InterpolationError("incompatible outline")` raised by the length check before
any pair is processed; no truncated result is returned and no extra points are
ignored. -/
theorem outline_blend_length_mismatch (op : ℝ → ℝ → ℝ) (a b : MathOutline)
    (h : a.value.length ≠ b.value.length) :
    a.doBinaryOperator b op = .error (.interpolationError "incompatible outline") := by
  simp [MathOutline.doBinaryOperator, h]

theorem outline_blend_length_mismatch_witness :
    (MathOutline.mk [.beginPath]).value.length ≠ (MathOutline.mk []).value.length ∧
    (MathOutline.mk [.beginPath]).doBinaryOperator ⟨[]⟩ (fun x y => x + y) =
      .error (.interpolationError "incompatible outline") :=
  ⟨by decide,
   outline_blend_length_mismatch (fun x y => x + y) ⟨[.beginPath]⟩ ⟨[]⟩ (by decide)⟩

/-- C10: the binary outline blend fails exactly when the operands differ in
operation count, in the method kind at some index, or in the segment type of
some `addPoint` pair (the only data `pathOpsCompatible` inspects); smooth
flags and point names are never compared, and every successful result takes
point arithmetic from both operands but segment type, smooth flag and point
name from the left operand (`blendOp`). -/
theorem outline_blend_error_characterization (op : ℝ → ℝ → ℝ) (a b : MathOutline) :
    ((∃ e, a.doBinaryOperator b op = .error e) ↔
      pathOpsCompatible a.value b.value = false)
    ∧ (∀ r, a.doBinaryOperator b op = .ok r →
        r.value = List.zipWith (blendOp op) a.value b.value) := by
  constructor
  · constructor
    · rintro ⟨e, he⟩
      by_contra hc
      have hc' : pathOpsCompatible a.value b.value = true := by simpa using hc
      rw [outline_doBinaryOperator_ok_of_compat op a b hc'] at he
      exact absurd he (by simp)
    · intro hc
      exact ⟨_, outline_doBinaryOperator_err_of_incompat op a b hc⟩
  · intro r hr
    by_cases hc : pathOpsCompatible a.value b.value = true
    · rw [outline_doBinaryOperator_ok_of_compat op a b hc] at hr
      obtain rfl : (⟨List.zipWith (blendOp op) a.value b.value⟩ : MathOutline) = r := by
        simpa using hr
      rfl
    · have hc' : pathOpsCompatible a.value b.value = false := by simpa using hc
      rw [outline_doBinaryOperator_err_of_incompat op a b hc'] at hr
      exact absurd hr (by simp)

theorem outline_blend_error_characterization_witness :
    ([PathOp.beginPath] : List PathOp) =
      List.zipWith (blendOp (fun x y => x + y)) [PathOp.beginPath] [PathOp.beginPath] :=
  (outline_blend_error_characterization (fun x y => x + y) ⟨[.beginPath]⟩ ⟨[.beginPath]⟩).2
    ⟨[PathOp.beginPath]⟩ (by rfl)

/-- C4: for structurally compatible outlines `a`, `b`, the blend `(a + b) - b`
succeeds and returns `a` exactly: point coordinates cancel in exact (real)
arithmetic, and all other operation data is taken from the left operand
throughout, hence preserved. -/
theorem outline_add_sub_cancel (a b : MathOutline)
    (h : pathOpsCompatible a.value b.value = true) :
    ∃ s, a.doBinaryOperator b (fun x y => x + y) = .ok s ∧
      s.doBinaryOperator b (fun x y => x - y) = .ok a := by
  refine ⟨⟨List.zipWith (blendOp (fun x y => x + y)) a.value b.value⟩,
    outline_doBinaryOperator_ok_of_compat _ a b h, ?_⟩
  have hc2 := zipWith_blendOp_compat (fun x y => x + y) a.value b.value h
  rw [outline_doBinaryOperator_ok_of_compat (fun x y => x - y)
    ⟨List.zipWith (blendOp (fun x y => x + y)) a.value b.value⟩ b hc2]
  rw [show (⟨List.zipWith (blendOp (fun x y => x + y)) a.value b.value⟩ : MathOutline).value
      = List.zipWith (blendOp (fun x y => x + y)) a.value b.value from rfl]
  rw [zipWith_blendOp_sub_add_cancel a.value b.value h]

theorem outline_add_sub_cancel_witness :
    ∃ s,
      (MathOutline.mk [.beginPath, .addPoint (1, 2) (some "line") false none, .endPath]).doBinaryOperator
        ⟨[.beginPath, .addPoint (3, 4) (some "line") true (some "p"), .endPath]⟩
        (fun x y => x + y) = .ok s ∧
      s.doBinaryOperator
        ⟨[.beginPath, .addPoint (3, 4) (some "line") true (some "p"), .endPath]⟩
        (fun x y => x - y) =
        .ok ⟨[.beginPath, .addPoint (1, 2) (some "line") false none, .endPath]⟩ :=
  outline_add_sub_cancel _ _ (by decide)

end RcjkTools

namespace RcjkTools

/-- C6: the point `(rcenterx, rcentery)` -- the point whose scaled image is the
(scaled) rotation pivot used by `makeTransform` -- is mapped to
`(x + rcenterx*scalex, y + rcentery*scaley)` for every rotation angle: the
rotation happens about the scaled pivot, so the pivot point itself only feels
the final translation, independent of the angle. -/
theorem makeTransform_pivot_fixed (x y rotation scalex scaley rcenterx rcentery : ℝ) :
    (makeTransform x y rotation scalex scaley rcenterx rcentery).transformPoint
      (rcenterx, rcentery) = (x + rcenterx * scalex, y + rcentery * scaley) := by
  simp only [makeTransform, Transform.identity, Transform.translate, Transform.rotate,
    Transform.scale, Transform.transform, Transform.transformPoint, Prod.mk.injEq]
  constructor <;> ring

/-- C5: an axis entry requires `min < max` (the assertion fails otherwise);
normalization maps a raw value `v` to `(v - min) / (max - min)` and clamps it
to `[0, 1]`; with a `wght` range `(0, 4)`, the raw location `{wght: 2}`
normalizes to `0.5` and `{wght: 10}` clamps to `1`. -/
theorem normalizeLocation_spec :
    (∀ v mn mx : ℝ, mn < mx →
      normalizeLocation [("wght", .num v)] [("wght", (mn, mx))] =
        .ok [("wght", min 1 (max 0 ((v - mn) / (mx - mn))))])
    ∧ (∀ v mn mx : ℝ, ¬ mn < mx →
      normalizeLocation [("wght", .num v)] [("wght", (mn, mx))] =
        .error (.otherError "assert minValue < maxValue"))
    ∧ normalizeLocation [("wght", .num 2)] [("wght", (0, 4))] = .ok [("wght", 1 / 2)]
    ∧ normalizeLocation [("wght", .num 10)] [("wght", (0, 4))] = .ok [("wght", 1)] := by
  refine ⟨?_, ?_, ?_, ?_⟩
  · intro v mn mx h
    simp [normalizeLocation, normalizeLocationGo, axesGet, normalizeValue,
      clampLocation, h]
  · intro v mn mx h
    simp [normalizeLocation, normalizeLocationGo, axesGet, normalizeValue,
      clampLocation, h]
  · norm_num [normalizeLocation, normalizeLocationGo, axesGet, normalizeValue,
      clampLocation, min_def, max_def]
  · norm_num [normalizeLocation, normalizeLocationGo, axesGet, normalizeValue,
      clampLocation, min_def, max_def]

theorem normalizeLocation_spec_witness :
    normalizeLocation [("wght", .num 2)] [("wght", ((0 : ℝ), (4 : ℝ)))] =
      .ok [("wght", min 1 (max 0 ((2 - 0) / (4 - 0))))] :=
  normalizeLocation_spec.1 2 0 4 (by norm_num)

end RcjkTools

namespace RcjkTools

theorem outline_doUnaryOperator_mul_one (o : MathOutline) :
    o.doUnaryOperator 1 (fun a b => a * b) = o := by
  cases o with
  | mk value =>
    simp only [MathOutline.doUnaryOperator, MathOutline.applyUnaryFunc, MathOutline.mk.injEq]
    induction value with
    | nil => rfl
    | cons hd tl ih => cases hd <;> simp_all [applyPathOpFunc]

theorem interpolateGo_empty_loc (v : Glyph) :
    ∀ (deltas : List (String × Glyph)), interpolateGo [] v deltas = .ok v
  | [] => rfl
  | (axis, delta) :: rest => by
    simp [interpolateGo, locGet, interpolateGo_empty_loc v rest]

theorem getDeltas_ok_fst (neutral : Glyph) (variations : List (String × Glyph))
    (ds : Glyph × List (String × Glyph)) (h : getDeltas neutral variations = .ok ds) :
    ds.1 = neutral := by
  unfold getDeltas at h
  cases hgo : getDeltasGo neutral variations with
  | error e => rw [hgo] at h; cases h
  | ok l => rw [hgo] at h; cases h; rfl

/-- C2: a glyph with a variation model (as every glyph with at least one
variation sibling has) instantiated at the empty location yields a glyph whose
outline equals the neutral master's outline point for point: every per-axis
weight is 0 at the empty location, so the result is `neutral * 1`, and scaling
every coordinate by 1 is the identity. The hypothesis that `getDeltas`
succeeds is the spec's data-model invariant that every variation sibling is
structurally compatible with the neutral master (the deltas are computed
eagerly before the location is evaluated). -/
theorem instantiate_neutral_location (m : GlyphMaster) (ds : Glyph × List (String × Glyph))
    (h1 : m.modelPresent = true) (_h2 : m.variations ≠ [])
    (h3 : getDeltas m.glyph m.variations = .ok ds) :
    ∃ g, m.instantiate [] = .ok g ∧ g.outline = m.glyph.outline := by
  refine ⟨m.glyph.doUnaryOperator 1 (fun a b => a * b), ?_, ?_⟩
  · have hfst := getDeltas_ok_fst m.glyph m.variations ds h3
    simp [GlyphMaster.instantiate, h1, h3, normalizeLocation, normalizeLocationGo,
      clampLocation, interpolateFromDeltas, hfst, interpolateGo_empty_loc]
  · simp [Glyph.doUnaryOperator, outline_doUnaryOperator_mul_one]

theorem instantiate_neutral_location_witness :
    ∃ g,
      (GlyphMaster.mk ⟨"g", 0, ⟨[]⟩, []⟩ [] [("wght", ⟨"g", 0, ⟨[]⟩, []⟩)] true).instantiate []
        = .ok g ∧
      g.outline =
        (GlyphMaster.mk ⟨"g", 0, ⟨[]⟩, []⟩ [] [("wght", ⟨"g", 0, ⟨[]⟩, []⟩)] true).glyph.outline :=
  instantiate_neutral_location _
    (⟨"g", 0, ⟨[]⟩, []⟩, [("wght", ⟨"g", (0 : ℝ) - 0, ⟨[]⟩, []⟩)])
    rfl (by simp) (by rfl)

theorem mdGet_cons (k0 : String) (v0 : MDValue) (rest : MathDict) (k : String) :
    mdGet ((k0, v0) :: rest) k = if k0 = k then some v0 else mdGet rest k := by
  by_cases h : k0 = k
  · simp [mdGet, List.find?, h]
  · have hb : (k0 == k) = false := beq_eq_false_iff_ne.mpr h
    simp [mdGet, List.find?, h, hb]

theorem mem_dedupKeysGo : ∀ (l seen : List String) (k : String),
    k ∈ dedupKeysGo seen l ↔ (k ∈ l ∧ k ∉ seen)
  | [], seen, k => by simp [dedupKeysGo]
  | k0 :: ks, seen, k => by
    by_cases h0 : k0 ∈ seen
    · simp only [dedupKeysGo, if_pos h0]
      rw [mem_dedupKeysGo ks seen k]
      constructor
      · rintro ⟨hk, hn⟩
        exact ⟨List.mem_cons_of_mem _ hk, hn⟩
      · rintro ⟨hk, hn⟩
        rcases List.mem_cons.mp hk with rfl | hk'
        · exact absurd h0 hn
        · exact ⟨hk', hn⟩
    · simp only [dedupKeysGo, if_neg h0]
      rw [List.mem_cons, mem_dedupKeysGo ks (k0 :: seen) k]
      constructor
      · rintro (rfl | ⟨hk, hn⟩)
        · exact ⟨List.mem_cons_self _ _, h0⟩
        · exact ⟨List.mem_cons_of_mem _ hk,
            fun hs => hn (List.mem_cons_of_mem _ hs)⟩
      · rintro ⟨hk, hn⟩
        by_cases hkk : k = k0
        · exact Or.inl hkk
        · rcases List.mem_cons.mp hk with rfl | hk'
          · exact absurd rfl hkk
          · exact Or.inr ⟨hk', fun hs => (List.mem_cons.mp hs).elim hkk hn⟩

theorem nodup_dedupKeysGo : ∀ (l seen : List String), (dedupKeysGo seen l).Nodup
  | [], seen => by simp [dedupKeysGo]
  | k0 :: ks, seen => by
    by_cases h0 : k0 ∈ seen
    · simpa [dedupKeysGo, h0] using nodup_dedupKeysGo ks seen
    · simp only [dedupKeysGo, if_neg h0]
      refine List.nodup_cons.mpr ⟨?_, nodup_dedupKeysGo ks (k0 :: seen)⟩
      intro hmem
      exact ((mem_dedupKeysGo ks (k0 :: seen) k0).mp hmem).2 (List.mem_cons_self _ _)

theorem mdBlendKeys_ok_keys (op : ℝ → ℝ → ℝ) (self other : MathDict) :
    ∀ (ks : List String) (r : MathDict),
      mdBlendKeys op self other ks = .ok r → r.map Prod.fst = ks
  | [], r, h => by cases h; rfl
  | k :: ks, r, h => by
    cases hc : combineAt op self other k with
    | error e => simp [mdBlendKeys, hc] at h
    | ok v =>
      cases hr : mdBlendKeys op self other ks with
      | error e => simp [mdBlendKeys, hc, hr] at h
      | ok rest =>
        simp only [mdBlendKeys, hc, hr] at h
        cases h
        simp [mdBlendKeys_ok_keys op self other ks rest hr]

theorem mdBlendKeys_ok_get (op : ℝ → ℝ → ℝ) (self other : MathDict) :
    ∀ (ks : List String) (r : MathDict), ks.Nodup →
      mdBlendKeys op self other ks = .ok r →
      ∀ k ∈ ks, ∃ v, combineAt op self other k = .ok v ∧ mdGet r k = some v
  | [], r, _, _, k, hk => by simp at hk
  | k0 :: ks, r, hnd, h, k, hk => by
    cases hc : combineAt op self other k0 with
    | error e => simp [mdBlendKeys, hc] at h
    | ok v0 =>
      cases hr : mdBlendKeys op self other ks with
      | error e => simp [mdBlendKeys, hc, hr] at h
      | ok rest =>
        simp only [mdBlendKeys, hc, hr] at h
        cases h
        rcases List.mem_cons.mp hk with rfl | hk'
        · exact ⟨v0, hc, by simp [mdGet_cons]⟩
        · have hne : k0 ≠ k := by
            rintro rfl
            exact (List.nodup_cons.mp hnd).1 hk'
          obtain ⟨v, hv1, hv2⟩ := mdBlendKeys_ok_get op self other ks rest
            (List.nodup_cons.mp hnd).2 hr k hk'
          exact ⟨v, hv1, by simp [mdGet_cons, hne, hv2]⟩

theorem mdBlendKeys_err (op : ℝ → ℝ → ℝ) (self other : MathDict) :
    ∀ (ks : List String) (k : String) (e : PyError), k ∈ ks →
      combineAt op self other k = .error e →
      (∀ k2 ∈ ks, k2 ≠ k → ∃ v, combineAt op self other k2 = .ok v) →
      mdBlendKeys op self other ks = .error e
  | [], k, e, hmem, _, _ => by simp at hmem
  | k0 :: ks, k, e, hmem, herr, hok => by
    by_cases hk : k0 = k
    · subst hk
      simp [mdBlendKeys, herr]
    · obtain ⟨v, hv⟩ := hok k0 (List.mem_cons_self _ _) hk
      have hmem' : k ∈ ks := by
        rcases List.mem_cons.mp hmem with rfl | h'
        · exact absurd rfl hk
        · exact h'
      have hrec := mdBlendKeys_err op self other ks k e hmem' herr
        (fun k2 hk2 hne => hok k2 (List.mem_cons_of_mem _ hk2) hne)
      simp [mdBlendKeys, hv, hrec]

/-- C3 counterexample: blending `{a: 1} + {}` does not fall back to the value
`1` for the key `a` present only in the left operand; the single value is used
for both operands and the operator is applied, yielding `1 + 1 = 2`. -/
theorem mathDict_fallback_counterexample :
    MathDict.doBinaryOperator [("a", MDValue.num 1)] [] (fun x y => x + y) =
      .ok [("a", MDValue.num (1 + 1))] ∧
    MDValue.num (1 + 1) ≠ MDValue.num 1 := by
  constructor
  · rfl
  · intro h
    rw [MDValue.num.injEq] at h
    norm_num at h

/-- C3 (amended): the binary dict blend produces exactly the union of the two
key sets (other's keys first, then self-only keys), and at every key the
result is the per-key step `combineAt`: numeric values on both sides get the
operator applied; a key present on one side only has its single value used for
both operands (so numeric values get `op v v` -- add doubles them, subtract
zeroes them -- while non-numeric values pass through unchanged); when the
self-preferred value is non-numeric the two values must compare equal or the
key fails with `InterpolationError("incompatible dicts")`, and a failing key
(when the other keys succeed) makes the whole blend fail with its error. -/
theorem mathDict_blend_characterization (op : ℝ → ℝ → ℝ) (self other : MathDict) :
    (∀ r, MathDict.doBinaryOperator self other op = .ok r →
      r.map Prod.fst = mdUnionKeys self other ∧
      ∀ k ∈ mdUnionKeys self other,
        ∃ v, combineAt op self other k = .ok v ∧ mdGet r k = some v)
    ∧ (∀ k e, k ∈ mdUnionKeys self other →
        combineAt op self other k = .error e →
        (∀ k2 ∈ mdUnionKeys self other, k2 ≠ k →
          ∃ v, combineAt op self other k2 = .ok v) →
        MathDict.doBinaryOperator self other op = .error e) := by
  constructor
  · intro r hr
    exact ⟨mdBlendKeys_ok_keys op self other _ r hr,
      mdBlendKeys_ok_get op self other _ r (nodup_dedupKeysGo _ _) hr⟩
  · intro k e hk herr hok
    exact mdBlendKeys_err op self other _ k e hk herr hok

theorem mathDict_blend_characterization_witness :
    ([("b", MDValue.num (2 + 2)), ("a", MDValue.num (1 + 1))] : MathDict).map Prod.fst =
      mdUnionKeys [("a", MDValue.num 1)] [("b", MDValue.num 2)] ∧
    ∀ k ∈ mdUnionKeys [("a", MDValue.num 1)] [("b", MDValue.num 2)],
      ∃ v, combineAt (fun x y => x + y) [("a", MDValue.num 1)] [("b", MDValue.num 2)] k
          = .ok v ∧
        mdGet [("b", MDValue.num (2 + 2)), ("a", MDValue.num (1 + 1))] k = some v :=
  (mathDict_blend_characterization (fun x y => x + y) [("a", MDValue.num 1)]
    [("b", MDValue.num 2)]).1
    [("b", MDValue.num (2 + 2)), ("a", MDValue.num (1 + 1))] (by rfl)

end RcjkTools

namespace RcjkTools

theorem addFlattened_all_ok (compose : String → Except PyError ℝ) :
    ∀ (names : List String), (∀ n ∈ names, isOtherErr (compose n) = false) →
      addFlattenedGlyphsToUFO compose names =
        (names.filterMap fun n =>
          match compose n with
          | .ok w => some (n, max 0 w)
          | _ => none, none)
  | [], _ => rfl
  | n :: rest, h => by
    have hn := h n (List.mem_cons_self _ _)
    have hrest := addFlattened_all_ok compose rest
      (fun m hm => h m (List.mem_cons_of_mem _ hm))
    cases hc : compose n with
    | ok w => simp [addFlattenedGlyphsToUFO, hc, hrest]
    | error e =>
      cases e with
      | interpolationError msg => simp [addFlattenedGlyphsToUFO, hc, hrest]
      | otherError msg => simp [isOtherErr, hc] at hn

theorem addFlattened_abort (compose : String → Except PyError ℝ) :
    ∀ (ns1 : List String) (n : String) (ns2 : List String) (msg : String),
      compose n = .error (.otherError msg) →
      (∀ k ∈ ns1, isOtherErr (compose k) = false) →
      addFlattenedGlyphsToUFO compose (ns1 ++ n :: ns2) =
        (ns1.filterMap fun k =>
          match compose k with
          | .ok w => some (k, max 0 w)
          | _ => none, some (.otherError msg))
  | [], n, ns2, msg, hn, _ => by simp [addFlattenedGlyphsToUFO, hn]
  | k :: ks, n, ns2, msg, hn, h => by
    have hk := h k (List.mem_cons_self _ _)
    have hrest := addFlattened_abort compose ks n ns2 msg hn
      (fun m hm => h m (List.mem_cons_of_mem _ hm))
    cases hc : compose k with
    | ok w => simp [addFlattenedGlyphsToUFO, hc, hrest]
    | error e =>
      cases e with
      | interpolationError m2 => simp [addFlattenedGlyphsToUFO, hc, hrest]
      | otherError m2 => simp [isOtherErr, hc] at hk

/-- C8: during bulk flattened export over a list of glyph names, a glyph whose
composition raises `InterpolationError` is skipped (not stored) and the loop
continues with the next glyph; when every composition error in the list is an
`InterpolationError` the loop finishes with exactly the successful glyphs
stored. Any other exception kind is not caught: it aborts the loop at that
glyph, with only the glyphs before it processed and an error reported. -/
theorem addFlattened_error_policy (compose : String → Except PyError ℝ) :
    (∀ names, (∀ n ∈ names, isOtherErr (compose n) = false) →
      addFlattenedGlyphsToUFO compose names =
        (names.filterMap fun n =>
          match compose n with
          | .ok w => some (n, max 0 w)
          | _ => none, none))
    ∧ (∀ ns1 n ns2 msg, compose n = .error (.otherError msg) →
        (∀ k ∈ ns1, isOtherErr (compose k) = false) →
        addFlattenedGlyphsToUFO compose (ns1 ++ n :: ns2) =
          (ns1.filterMap fun k =>
            match compose k with
            | .ok w => some (k, max 0 w)
            | _ => none, some (.otherError msg))) :=
  ⟨addFlattened_all_ok compose,
   fun ns1 n ns2 msg h1 h2 => addFlattened_abort compose ns1 n ns2 msg h1 h2⟩

theorem addFlattened_error_policy_witness :
    addFlattenedGlyphsToUFO
        (fun n => if n = "bad" then .error (.interpolationError "nope") else .ok 5)
        ["a", "bad", "c"] =
      ((["a", "bad", "c"].filterMap fun n =>
        match (if n = "bad" then (.error (.interpolationError "nope") : Except PyError ℝ)
            else .ok 5) with
        | .ok w => some (n, max 0 w)
        | _ => none), none) :=
  (addFlattened_error_policy
      (fun n => if n = "bad" then .error (.interpolationError "nope") else .ok 5)).1
    ["a", "bad", "c"] (by decide)

/-- C9: every glyph actually stored by the bulk flattened export has as its
written advance width `max 0 w`, where `w` is the width produced by that
glyph's composition; in particular the stored width is never negative, even
when the interpolated width is. -/
theorem addFlattened_width_nonneg (compose : String → Except PyError ℝ) :
    ∀ (names : List String) (n : String) (w2 : ℝ),
      (n, w2) ∈ (addFlattenedGlyphsToUFO compose names).1 →
      (∃ w, compose n = .ok w ∧ w2 = max 0 w) ∧ 0 ≤ w2
  | [], n, w2, h => by simp [addFlattenedGlyphsToUFO] at h
  | m :: rest, n, w2, h => by
    cases hc : compose m with
    | ok w =>
      simp only [addFlattenedGlyphsToUFO, hc, List.mem_cons] at h
      rcases h with h | h
      · obtain ⟨rfl, rfl⟩ : n = m ∧ w2 = max 0 w := by
          simpa [Prod.ext_iff] using h
        exact ⟨⟨w, hc, rfl⟩, le_max_left 0 w⟩
      · exact addFlattened_width_nonneg compose rest n w2 h
    | error e =>
      cases e with
      | interpolationError msg =>
        simp only [addFlattenedGlyphsToUFO, hc] at h
        exact addFlattened_width_nonneg compose rest n w2 h
      | otherError msg => simp [addFlattenedGlyphsToUFO, hc] at h

theorem addFlattened_width_nonneg_witness :
    (∃ w, (fun _ => (.ok (-5) : Except PyError ℝ)) "a" = .ok w ∧
        max 0 (-5 : ℝ) = max 0 w) ∧
      (0 : ℝ) ≤ max 0 (-5 : ℝ) :=
  addFlattened_width_nonneg (fun _ => .ok (-5)) ["a"] "a" (max 0 (-5))
    (by simp [addFlattenedGlyphsToUFO])

end RcjkTools

namespace RcjkTools

/-- C1: end-to-end composition. Character glyph "A" (neutral width `w`) has one
ComponentRef to deep component "B" with coordinate `{wght: 1}` and transform
`(x=10, y=0, rotation=0, scaleX=1, scaleY=1, pivotX=0, pivotY=0)`; "B" has one
ComponentRef to atomic element "C" with identity transform and empty
coordinate; "C"'s neutral outline is the closed square (0,0),(10,0),(10,10),
(0,10). Then `instantiateCharacterGlyph("A", {})` returns the flattened atomic
outline translated by (10, 0) -- points (10,0),(20,0),(20,10),(10,10) -- and
width equal to "A"'s neutral advance width `w`. -/
theorem instantiateCharacterGlyph_end_to_end (w : ℝ) :
    (projectABC w).instantiateCharacterGlyph "A" [] =
      .ok (⟨[]⟩, [("B", [("C",
        ⟨[.beginPath,
          .addPoint (10, 0) (some "line") false none,
          .addPoint (20, 0) (some "line") false none,
          .addPoint (20, 10) (some "line") false none,
          .addPoint (10, 10) (some "line") false none,
          .endPath]⟩)])], w) := by
  have hmk10 : makeTransform 10 0 0 1 1 0 0 = ⟨1, 0, 0, 1, 10, 0⟩ := by
    simp [makeTransform, radians, Transform.identity, Transform.translate,
      Transform.rotate, Transform.scale, Transform.transform, zero_mul,
      Real.cos_zero, Real.sin_zero, Transform.mk.injEq]
  have hmk0 : makeTransform 0 0 0 1 1 0 0 = ⟨1, 0, 0, 1, 0, 0⟩ := by
    simp [makeTransform, radians, Transform.identity, Transform.translate,
      Transform.rotate, Transform.scale, Transform.transform, zero_mul,
      Real.cos_zero, Real.sin_zero, Transform.mk.injEq]
  have hcomp : Transform.transform ⟨1, 0, 0, 1, 10, 0⟩ ⟨1, 0, 0, 1, 0, 0⟩ =
      (⟨1, 0, 0, 1, 10, 0⟩ : Transform) := by
    simp [Transform.transform, Transform.mk.injEq]
  simp [RoboCJKProject.instantiateCharacterGlyph, lookupGlyph, projectABC,
    glyphMasterA, glyphMasterB, glyphMasterC, GlyphMaster.instantiate,
    instantiateDeepItems, RoboCJKProject.instantiateDeepComponent,
    instantiateAtomicItems, RoboCJKProject.instantiateAtomicElement,
    makeTransformFromDict, mdGetNum, mdGet, List.find?, transformDictB,
    identityTransformDict, hmk10, hmk0, hcomp, MathOutline.transform,
    MathOutline.applyUnaryFunc, applyPathOpFunc, outlineC,
    Transform.transformPoint, Prod.ext_iff]
  norm_num

end RcjkTools
